import Mathlib

/-
  A shallow embedding of cbindgen's generic-type-path resolution layer
  (src/bindgen/ir/generic_path.rs): `GenericParams`, `GenericPath`, and the
  construction/loading and transformation passes applied to generic paths.

  External collaborators (`Path`, `Type`, `Config`, the declaration-type
  resolver, the `try_skip_map` iterator helper and the `syn` AST shapes) are
  not part of the embedded file; they are modelled from the specification's
  description of their interfaces, each marked `Modelled from the spec:`.
-/

namespace Cbindgen

/-- Modelled from the spec: the Identifier Path (bindgen::ir::Path), an
opaque identifier value with equality, ordering and a textual name accessor
(§2, §6). Modelled as its textual name. -/
structure Path where
  name : String
deriving DecidableEq

/-- Modelled from the spec: `Path::new` builds an identifier from its
textual name. -/
def Path.new (name : String) : Path := ⟨name⟩

/-- Modelled from the spec (§4.3): `Path::replace_self_with` replaces the
identifier with the concrete path if and only if it textually equals the
reserved `Self` placeholder, reporting whether a replacement happened.
Returns (replaced?, resulting path), embedding the Rust `&mut self` +
`bool` signature. -/
def Path.replace_self_with (p : Path) (self_ty : Path) : Bool × Path :=
  if p.name = "Self" then (true, self_ty) else (false, p)

/-- Modelled from the spec: the target-language flag distinguishing a
target with first-class generics (C++) from one without (C) (§6). -/
inductive Language where
  | Cxx
  | C
deriving DecidableEq

/-- Modelled from the spec: the Naming Policy, exposing one operation
`rename(identifier) -> identifier` (§2, §6); cbindgen's `ExportConfig`
rename applied to an export name. -/
structure ExportConfig where
  rename : String → String

/-- Modelled from the spec: the configuration carrying the active target
language and the naming policy (bindgen::config::Config). -/
structure Config where
  language : Language
  exportConfig : ExportConfig

/-- Modelled from the spec (§3, §4.5): the optional declaration-kind
classification (struct/union/enum/typedef/opaque). -/
inductive DeclarationType where
  | Struct
  | Union
  | Enum
  | Typedef
  | Opaque
deriving DecidableEq

/-- Modelled from the spec: the Type Tree (bindgen::ir::Type), an opaque,
recursively-structured type value supporting self-substitution, loading and
renaming (§2, §6, §9); modelled as a node carrying a base identifier, an
export name and recursively nested argument types. -/
inductive Ty where
  | node (base : Path) (export_name : String) (args : List Ty)

/-- `GenericParams`: the ordered list of type-parameter names declared by an
enclosing generic item. -/
structure GenericParams where
  params : List Path

/-- Modelled from the spec: a source generic parameter is a type, lifetime
or const parameter (syn::GenericParam). -/
inductive GenericParam where
  | typeParam (ident : String)
  | lifetimeParam (ident : String)
  | constParam (ident : String)

/-- Modelled from the spec: a source generics declaration (syn::Generics). -/
structure Generics where
  params : List GenericParam

/-- `GenericParams::new`: keep only type parameters, dropping lifetime and
const parameters silently. -/
def GenericParams.new (generics : Generics) : GenericParams :=
  ⟨generics.params.filterMap fun x =>
    match x with
    | .typeParam ident => some (Path.new ident)
    | _ => none⟩

/-- The `Deref`-based membership test `generic_params.contains(&path)`:
slice membership of an identifier path. -/
def GenericParams.contains (ps : GenericParams) (p : Path) : Bool :=
  ps.params.contains p

/-- The body written by the `Source for GenericParams` loop: for each
`(i, item)` of the enumerated parameter list, write `", "` when `i != 0`,
then `typename {item}`. The index is threaded explicitly, mirroring
`self.0.iter().enumerate()`. -/
def writeTemplateParams : Nat → List Path → String
  | _, [] => ""
  | i, p :: rest =>
      (if i ≠ 0 then ", " else "") ++ "typename " ++ p.name ++
        writeTemplateParams (i + 1) rest

/-- `Source::write` for `GenericParams`: when the list is non-empty and the
language is C++, emit `template<...>` followed by a new line; otherwise emit
nothing. The `SourceWriter` is modelled from the spec as the emitted string. -/
def GenericParams.write (ps : GenericParams) (config : Config) : String :=
  if ¬ ps.params.isEmpty ∧ config.language = Language.Cxx then
    "template<" ++ writeTemplateParams 0 ps.params ++ ">" ++ "\n"
  else ""

mutual

/-- Modelled from the spec (§4.3, applied to the Type Tree): substitute the
`Self` placeholder recursively at every depth of the type value. -/
def Ty.replace_self_with (self_ty : Path) : Ty → Ty
  | .node base en args =>
      if base.name = "Self" then
        .node self_ty self_ty.name (replaceSelfList self_ty args)
      else
        .node base en (replaceSelfList self_ty args)

/-- Self-substitution mapped over a list of nested type arguments. -/
def replaceSelfList (self_ty : Path) : List Ty → List Ty
  | [] => []
  | t :: ts => Ty.replace_self_with self_ty t :: replaceSelfList self_ty ts

end

mutual

/-- Modelled from the spec (§4.4, the Type Tree's own renaming entry
point): recurse into nested arguments, then rename the export name unless
the base is a declared generic parameter. -/
def Ty.rename_for_config (config : Config) (params : GenericParams) : Ty → Ty
  | .node base en args =>
      let args' := renameConfigList config params args
      if params.contains base then .node base en args'
      else .node base (config.exportConfig.rename en) args'

/-- Renaming mapped over a list of nested type arguments. -/
def renameConfigList (config : Config) (params : GenericParams) :
    List Ty → List Ty
  | [] => []
  | t :: ts =>
      Ty.rename_for_config config params t :: renameConfigList config params ts

end

/-- Modelled from the spec: a source type expression handed to the Type
Tree loader; the loader is opaque to this core (§2, §6), so an expression
is modelled by its loading outcome: a representable type value, a value
with no target representation (loaded as absent), or a malformed expression
rejected with a message. -/
inductive TypeExpr where
  | loadsTo (t : Ty)
  | unrepresented
  | invalid (msg : String)

/-- Modelled from the spec: `Type::load(expr) -> Result<Option<Type>,
String>`; fallible AST-to-value loading, where some source types load to no
representable value. -/
def Ty.load : TypeExpr → Except String (Option Ty)
  | .loadsTo t => .ok (some t)
  | .unrepresented => .ok none
  | .invalid msg => .error msg

/-- Modelled from the spec: the whole-program Declaration-Kind Index
(bindgen::declarationtyperesolver::DeclarationTypeResolver), a mapping from
identifier path to an optional declaration kind (§2, §6). -/
structure DeclarationTypeResolver where
  type_for : Path → Option DeclarationType

/-- `GenericPath`: one instantiation of a named type with its generic
arguments, export name, and resolved declaration kind. -/
structure GenericPath where
  path : Path
  export_name : String
  generics : List Ty
  ctype : Option DeclarationType

/-- `GenericPath::new`: the export name is initialized to the path's name
and the declaration kind starts absent. -/
def GenericPath.new (path : Path) (generics : List Ty) : GenericPath :=
  { path := path
    export_name := path.name
    generics := generics
    ctype := none }

/-- `GenericPath::replace_self_with`: replace the base when it is the
`Self` placeholder (resynchronizing the export name), then recurse into
every generic argument unconditionally. -/
def GenericPath.replace_self_with (gp : GenericPath) (self_ty : Path) :
    GenericPath :=
  let r := gp.path.replace_self_with self_ty
  { path := r.2
    export_name := if r.1 then self_ty.name else gp.export_name
    generics := gp.generics.map fun t => t.replace_self_with self_ty
    ctype := gp.ctype }

/-- `GenericPath::rename_for_config`: recurse into every generic argument,
then rename the export name unless the base is a declared generic
parameter. -/
def GenericPath.rename_for_config (gp : GenericPath) (config : Config)
    (params : GenericParams) : GenericPath :=
  let generics' := gp.generics.map (Ty.rename_for_config config params)
  if params.contains gp.path then
    { gp with generics := generics' }
  else
    { gp with
        generics := generics'
        export_name := config.exportConfig.rename gp.export_name }

/-- `GenericPath::resolve_declaration_types`: a pure lookup of the base in
the resolver. -/
def GenericPath.resolve_declaration_types (gp : GenericPath)
    (resolver : DeclarationTypeResolver) : GenericPath :=
  { gp with ctype := resolver.type_for gp.path }

/-- Modelled from the spec: a generic argument of a source path segment
(syn::GenericArgument): a type argument, a lifetime, an associated-type
binding or a const value. -/
inductive GenericArgument where
  | typeArg (e : TypeExpr)
  | lifetime (name : String)
  | binding (repr : String)
  | constArg (repr : String)

/-- Modelled from the spec: the Debug rendering of a generic argument used
in the kind-specific error message; each kind renders distinctly. -/
def GenericArgument.debugRepr : GenericArgument → String
  | .typeArg _ => "Type(..)"
  | .lifetime name => "Lifetime(" ++ name ++ ")"
  | .binding r => "Binding(" ++ r ++ ")"
  | .constArg r => "Const(" ++ r ++ ")"

/-- Modelled from the spec: the argument list carried by a source path
segment (syn::PathArguments): none, an angle-bracketed generic-argument
list, or a parenthesized (call-syntax) list. -/
inductive PathArguments where
  | none
  | angleBracketed (args : List GenericArgument)
  | parenthesized

/-- Modelled from the spec: one segment of a source path expression
(syn::PathSegment): an identifier plus its argument list. -/
structure PathSegment where
  ident : String
  arguments : PathArguments

/-- Modelled from the spec: a source path expression, a sequence of
segments (syn::Path). -/
structure SynPath where
  segments : List PathSegment

/-- Modelled from the spec: a Debug rendering of a source path expression,
used only in the contract-violation abort message. -/
def SynPath.debugRepr (p : SynPath) : String :=
  "Path(" ++ String.intercalate "::" (p.segments.map (·.ident)) ++ ")"

/-- Modelled from the spec (§4.2): `try_skip_map` (bindgen::utilities):
convert each element independently, skipping elements that convert to
nothing and propagating the first failure immediately (fail-fast, no
partial result). -/
def trySkipMap (f : α → Except String (Option β)) : List α →
    Except String (List β)
  | [] => .ok []
  | x :: xs =>
      match f x with
      | .error e => .error e
      | .ok Option.none => trySkipMap f xs
      | .ok (some b) =>
          match trySkipMap f xs with
          | .error e => .error e
          | .ok bs => .ok (b :: bs)

/-- The per-argument conversion used by `load` on an angle-bracketed list:
a type argument recursively loads, a lifetime contributes nothing, and any
other kind is rejected with a kind-specific message. -/
def loadGenericArgument : GenericArgument → Except String (Option Ty)
  | .typeArg e => Ty.load e
  | .lifetime _ => .ok none
  | x => .error ("can\x27t handle generic argument " ++ x.debugRepr)

/-- The result of `GenericPath::load`: a success, a recoverable
result-style failure, or a programming-contract abort (the Rust
`assert!`). -/
inductive LoadResult where
  | ok (gp : GenericPath)
  | err (msg : String)
  | panicked (msg : String)

/-- `GenericPath::load`: assert at least one segment, take the last
segment, special-case the `PhantomData` base before looking at the
arguments, then convert an angle-bracketed argument list (rejecting a
parenthesized one) and build the path. -/
def GenericPath.load (p : SynPath) : LoadResult :=
  match p.segments.getLast? with
  | Option.none =>
      .panicked (p.debugRepr ++ " doesn\x27t have any segments")
  | some last_segment =>
      let name := last_segment.ident
      let path := Path.new name
      let phantom_data_path := Path.new "PhantomData"
      if path = phantom_data_path then
        .ok (GenericPath.new path [])
      else
        match last_segment.arguments with
        | .angleBracketed args =>
            match trySkipMap loadGenericArgument args with
            | .error e => .err e
            | .ok generics => .ok (GenericPath.new path generics)
        | .parenthesized => .err "Path contains parentheses."
        | .none => .ok (GenericPath.new path [])

/-- Concatenation of a list of strings, used to state serialization
lemmas. -/
def joinAll : List String → String
  | [] => ""
  | s :: rest => s ++ joinAll rest

/-- Spec-side rendering for the template-parameter header: the given
pieces comma-separated, in order. -/
def commaSeparated : List String → String
  | [] => ""
  | [x] => x
  | x :: xs => x ++ ", " ++ commaSeparated xs

/-- Loading a path expression only looks at its last segment: leading
segments (module qualifiers) are discarded. -/
theorem load_concat (qual : List PathSegment) (ident : String)
    (args : PathArguments) :
    GenericPath.load ⟨qual ++ [⟨ident, args⟩]⟩ =
      (if Path.new ident = Path.new "PhantomData" then
        LoadResult.ok (GenericPath.new (Path.new ident) [])
      else
        match args with
        | .angleBracketed gargs =>
            match trySkipMap loadGenericArgument gargs with
            | .error e => LoadResult.err e
            | .ok generics =>
                LoadResult.ok (GenericPath.new (Path.new ident) generics)
        | .parenthesized => LoadResult.err "Path contains parentheses."
        | .none => LoadResult.ok (GenericPath.new (Path.new ident) [])) := by
  unfold GenericPath.load
  simp only [List.getLast?_concat]

/-- C2: `rename_for_config` leaves `export_name` unchanged exactly when the
base is a member of the generic parameter list — for every naming policy —
and otherwise replaces it with the policy applied to the current
`export_name`. -/
theorem rename_for_config_export_name (gp : GenericPath) (config : Config)
    (params : GenericParams) :
    (gp.rename_for_config config params).export_name =
      if params.contains gp.path then gp.export_name
      else config.exportConfig.rename gp.export_name := by
  cases hc : params.contains gp.path <;>
    simp [GenericPath.rename_for_config, hc]

/-- C3: `replace_self_with` replaces the base and resynchronizes
`export_name` to the concrete path's name exactly when the base textually
equals the `Self` placeholder; otherwise both are left untouched; in both
cases the substitution recurses into every generic argument, and the
declaration kind is preserved. -/
theorem replace_self_with_spec (gp : GenericPath) (self_ty : Path) :
    (gp.replace_self_with self_ty).path =
        (if gp.path.name = "Self" then self_ty else gp.path)
    ∧ (gp.replace_self_with self_ty).export_name =
        (if gp.path.name = "Self" then self_ty.name else gp.export_name)
    ∧ (gp.replace_self_with self_ty).generics =
        gp.generics.map (fun t => t.replace_self_with self_ty)
    ∧ (gp.replace_self_with self_ty).ctype = gp.ctype := by
  by_cases h : gp.path.name = "Self" <;>
    simp [GenericPath.replace_self_with, Path.replace_self_with, h]

/-- C5: `resolve_declaration_types` sets the declaration kind to exactly
the resolver's optional lookup result on the base (never failing on an
unknown base) and leaves the base, export name and arguments unchanged. -/
theorem resolve_declaration_types_spec (gp : GenericPath)
    (resolver : DeclarationTypeResolver) :
    (gp.resolve_declaration_types resolver).ctype = resolver.type_for gp.path
    ∧ (gp.resolve_declaration_types resolver).path = gp.path
    ∧ (gp.resolve_declaration_types resolver).export_name = gp.export_name
    ∧ (gp.resolve_declaration_types resolver).generics = gp.generics :=
  ⟨rfl, rfl, rfl, rfl⟩

/-- C8: loading a path expression whose last segment carries no generic
arguments succeeds with empty `arguments`, `export_name` equal to the last
segment's textual name, and an absent declaration kind. -/
theorem load_no_arguments_spec (qual : List PathSegment) (ident : String) :
    GenericPath.load ⟨qual ++ [⟨ident, PathArguments.none⟩]⟩ =
      LoadResult.ok
        { path := Path.new ident
          export_name := ident
          generics := []
          ctype := Option.none } := by
  rw [load_concat]
  by_cases h : Path.new ident = Path.new "PhantomData" <;>
    simp [h, GenericPath.new, Path.new, Path.name]

/-- C4: loading a path expression whose last segment is `PhantomData`
succeeds with an empty argument list, regardless of the supplied argument
syntax (well-formed, malformed, or parenthesized). -/
theorem load_phantom_empty_args (qual : List PathSegment)
    (args : PathArguments) :
    GenericPath.load ⟨qual ++ [⟨"PhantomData", args⟩]⟩ =
      LoadResult.ok (GenericPath.new (Path.new "PhantomData") []) := by
  rw [load_concat]
  simp

/-- C10: `GenericPath::new` applies no `PhantomData` special case — a path
constructed directly with the placeholder base retains all supplied
arguments — while `load` of a `PhantomData` path always discards them. -/
theorem new_no_phantom_special_case :
    (∀ gens : List Ty,
        (GenericPath.new (Path.new "PhantomData") gens).generics = gens)
    ∧ ∀ args : List GenericArgument,
        GenericPath.load
            ⟨[⟨"PhantomData", PathArguments.angleBracketed args⟩]⟩ =
          LoadResult.ok (GenericPath.new (Path.new "PhantomData") []) := by
  refine ⟨fun gens => rfl, fun args => ?_⟩
  rw [show ([⟨"PhantomData", PathArguments.angleBracketed args⟩] :
      List PathSegment) = [] ++ [⟨"PhantomData",
      PathArguments.angleBracketed args⟩] from rfl, load_concat]
  simp

/-- C1 (counterexample): a parenthesized-argument path whose base is
`PhantomData` does not fail — the placeholder special case runs before the
argument check, so `load` succeeds with empty arguments. -/
theorem load_parenthesized_phantom_ok :
    GenericPath.load ⟨[⟨"PhantomData", PathArguments.parenthesized⟩]⟩ =
      LoadResult.ok (GenericPath.new (Path.new "PhantomData") []) := by
  rw [show ([⟨"PhantomData", PathArguments.parenthesized⟩] :
      List PathSegment) = [] ++ [⟨"PhantomData",
      PathArguments.parenthesized⟩] from rfl, load_concat]
  simp

/-- C1 (amended): for every base identifier other than the `PhantomData`
placeholder, a path expression whose last segment carries a parenthesized
argument list fails `load` with the parentheses-specific error, regardless
of the content of the parentheses. -/
theorem load_parenthesized_rejected (qual : List PathSegment)
    (ident : String) (h : ident ≠ "PhantomData") :
    GenericPath.load ⟨qual ++ [⟨ident, PathArguments.parenthesized⟩]⟩ =
      LoadResult.err "Path contains parentheses." := by
  rw [load_concat]
  simp [Path.new, h]

/-- Witness for the amended C1 at a concrete non-placeholder base. -/
theorem load_parenthesized_rejected_witness :
    GenericPath.load ⟨[⟨"Foo", PathArguments.parenthesized⟩]⟩ =
      LoadResult.err "Path contains parentheses." :=
  load_parenthesized_rejected [] "Foo" (by decide)

/-- C7: `load` aborts (panics) exactly on an empty segment list — never
returning a recoverable result-style failure there — and with at least one
segment the abort branch is unreachable. -/
theorem load_segments_contract (p : SynPath) :
    (p.segments = [] →
        GenericPath.load p =
          LoadResult.panicked
            (p.debugRepr ++ " doesn\x27t have any segments")
        ∧ ∀ e, GenericPath.load p ≠ LoadResult.err e)
    ∧ (p.segments ≠ [] →
        ∀ m, GenericPath.load p ≠ LoadResult.panicked m) := by
  constructor
  · intro h
    have hload : GenericPath.load p =
        LoadResult.panicked (p.debugRepr ++ " doesn\x27t have any segments") := by
      unfold GenericPath.load
      rw [h]
      rfl
    exact ⟨hload, fun e he => by rw [hload] at he; exact LoadResult.noConfusion he⟩
  · intro h m
    rcases List.eq_nil_or_concat p.segments with hnil | ⟨l, a, hla⟩
    · exact absurd hnil h
    · obtain ⟨segs⟩ := p
      simp only at hla
      rw [List.concat_eq_append] at hla
      subst hla
      obtain ⟨ident, args⟩ := a
      rw [load_concat]
      by_cases hph : Path.new ident = Path.new "PhantomData"
      · simp [hph]
      · rw [if_neg hph]
        cases args with
        | angleBracketed gargs =>
            cases htm : trySkipMap loadGenericArgument gargs <;> simp [htm]
        | parenthesized => simp
        | none => simp

/-- Witness for C7: the empty path panics; a one-segment path does not. -/
theorem load_segments_contract_witness :
    GenericPath.load ⟨[]⟩ =
      LoadResult.panicked
        ((SynPath.mk []).debugRepr ++ " doesn\x27t have any segments")
    ∧ ∀ m, GenericPath.load ⟨[⟨"A", PathArguments.none⟩]⟩ ≠
        LoadResult.panicked m :=
  ⟨((load_segments_contract ⟨[]⟩).1 rfl).1,
   (load_segments_contract ⟨[⟨"A", PathArguments.none⟩]⟩).2 (by simp)⟩

/-- Appending past a successfully converted pre-list: the conversion of the
whole list is the conversion of the tail, prefixed by the pre-list's
output. -/
theorem trySkipMap_ok_append (f : α → Except String (Option β))
    (l1 : List α) (gs : List β) (h : trySkipMap f l1 = .ok gs)
    (l2 : List α) :
    trySkipMap f (l1 ++ l2) =
      match trySkipMap f l2 with
      | .error e => .error e
      | .ok bs => .ok (gs ++ bs) := by
  induction l1 generalizing gs with
  | nil =>
      simp only [trySkipMap, Except.ok.injEq] at h
      subst h
      cases htl : trySkipMap f l2 <;> simp [htl]
  | cons x xs ih =>
      cases hfx : f x with
      | error e => simp [trySkipMap, hfx] at h
      | ok ob =>
        cases ob with
        | none =>
            simp only [trySkipMap, hfx] at h
            simpa [trySkipMap, hfx] using ih gs h
        | some b =>
            simp only [trySkipMap, hfx] at h
            cases htx : trySkipMap f xs with
            | error e => simp [htx] at h
            | ok bs =>
                rw [htx] at h
                simp only [Except.ok.injEq] at h
                subst h
                rw [List.cons_append]
                simp only [trySkipMap, hfx]
                rw [ih bs htx]
                cases htl : trySkipMap f l2 <;> simp [htl]

/-- Fail-fast: when every element of the pre-list converts successfully and
the next element fails, the whole conversion fails with that element's
message, whatever follows. -/
theorem trySkipMap_fail (f : α → Except String (Option β))
    (pre : List α) (gs : List β) (hpre : trySkipMap f pre = .ok gs)
    (x : α) (msg : String) (hx : f x = .error msg) (post : List α) :
    trySkipMap f (pre ++ x :: post) = .error msg := by
  rw [trySkipMap_ok_append f pre gs hpre (x :: post)]
  simp [trySkipMap, hx]

/-- An element converting to nothing contributes nothing: it can be removed
from the list without changing the conversion. -/
theorem trySkipMap_skip (f : α → Except String (Option β)) (x : α)
    (hx : f x = .ok Option.none) (l1 l2 : List α) :
    trySkipMap f (l1 ++ x :: l2) = trySkipMap f (l1 ++ l2) := by
  induction l1 with
  | nil => simp [trySkipMap, hx]
  | cons y ys ih =>
      cases hfy : f y with
      | error e => simp [trySkipMap, hfy]
      | ok ob => cases ob <;> simp [trySkipMap, hfy, ih]

/-- C6: on an angle-bracketed argument list with a non-placeholder base:
all type arguments are recursively converted in order and a fully
successful conversion yields exactly that list; the first nested load
failure is propagated immediately as the overall result; a lifetime
argument is silently dropped; and an associated-type binding or const
argument is rejected with a kind-specific message. -/
theorem load_angle_bracketed_spec (ident : String)
    (qual : List PathSegment) (hident : ident ≠ "PhantomData") :
    (∀ (args : List GenericArgument) (gs : List Ty),
        trySkipMap loadGenericArgument args = Except.ok gs →
        GenericPath.load
            ⟨qual ++ [⟨ident, PathArguments.angleBracketed args⟩]⟩ =
          LoadResult.ok (GenericPath.new (Path.new ident) gs))
    ∧ (∀ (pre : List GenericArgument) (e : TypeExpr) (msg : String)
          (post : List GenericArgument) (gs : List Ty),
        trySkipMap loadGenericArgument pre = Except.ok gs →
        Ty.load e = Except.error msg →
        GenericPath.load
            ⟨qual ++ [⟨ident, PathArguments.angleBracketed
                (pre ++ GenericArgument.typeArg e :: post)⟩]⟩ =
          LoadResult.err msg)
    ∧ (∀ (pre : List GenericArgument) (lt : String)
          (post : List GenericArgument),
        GenericPath.load
            ⟨qual ++ [⟨ident, PathArguments.angleBracketed
                (pre ++ GenericArgument.lifetime lt :: post)⟩]⟩ =
          GenericPath.load
            ⟨qual ++ [⟨ident, PathArguments.angleBracketed (pre ++ post)⟩]⟩)
    ∧ (∀ (pre : List GenericArgument) (r : String)
          (post : List GenericArgument) (gs : List Ty),
        trySkipMap loadGenericArgument pre = Except.ok gs →
        GenericPath.load
            ⟨qual ++ [⟨ident, PathArguments.angleBracketed
                (pre ++ GenericArgument.binding r :: post)⟩]⟩ =
          LoadResult.err ("can\x27t handle generic argument " ++
            (GenericArgument.binding r).debugRepr)
        ∧ GenericPath.load
            ⟨qual ++ [⟨ident, PathArguments.angleBracketed
                (pre ++ GenericArgument.constArg r :: post)⟩]⟩ =
          LoadResult.err ("can\x27t handle generic argument " ++
            (GenericArgument.constArg r).debugRepr)) := by
  have hpath : ¬ (Path.new ident = Path.new "PhantomData") := by
    simpa [Path.new] using hident
  refine ⟨?_, ?_, ?_, ?_⟩
  · intro args gs hargs
    rw [load_concat]
    simp [hpath, hargs]
  · intro pre e msg post gs hpre he
    have hx : loadGenericArgument (GenericArgument.typeArg e) =
        Except.error msg := he
    rw [load_concat]
    simp [hpath,
      trySkipMap_fail loadGenericArgument pre gs hpre
        (GenericArgument.typeArg e) msg hx post]
  · intro pre lt post
    simp only [load_concat]
    rw [trySkipMap_skip loadGenericArgument (GenericArgument.lifetime lt)
      rfl pre post]
  · intro pre r post gs hpre
    have hb : loadGenericArgument (GenericArgument.binding r) =
        Except.error ("can\x27t handle generic argument " ++
          (GenericArgument.binding r).debugRepr) := rfl
    have hc : loadGenericArgument (GenericArgument.constArg r) =
        Except.error ("can\x27t handle generic argument " ++
          (GenericArgument.constArg r).debugRepr) := rfl
    constructor
    · rw [load_concat]
      simp [hpath,
        trySkipMap_fail loadGenericArgument pre gs hpre
          (GenericArgument.binding r) _ hb post]
    · rw [load_concat]
      simp [hpath,
        trySkipMap_fail loadGenericArgument pre gs hpre
          (GenericArgument.constArg r) _ hc post]

/-- Witness for C6: a failing nested type argument makes the whole load
fail with the nested message. -/
theorem load_angle_bracketed_spec_witness :
    GenericPath.load ⟨[⟨"Vec", PathArguments.angleBracketed
        [GenericArgument.typeArg (TypeExpr.invalid "boom")]⟩]⟩ =
      LoadResult.err "boom" :=
  (load_angle_bracketed_spec "Vec" [] (by decide)).2.1 []
    (TypeExpr.invalid "boom") "boom" [] [] rfl rfl

/-- Past the first position, the writer loop prefixes every parameter with
a comma separator. -/
theorem writeTemplateParams_pos (l : List Path) (i : Nat) (h : i ≠ 0) :
    writeTemplateParams i l =
      joinAll (l.map fun p => ", " ++ ("typename " ++ p.name)) := by
  induction l generalizing i with
  | nil => rfl
  | cons p rest ih =>
      simp only [writeTemplateParams, List.map_cons, joinAll]
      rw [if_pos h, ih (i + 1) (Nat.succ_ne_zero i)]
      congr 1

/-- Comma separation of a non-empty list is its head followed by the
comma-prefixed tail. -/
theorem commaSeparated_eq (a : String) (xs : List String) :
    commaSeparated (a :: xs) = a ++ joinAll (xs.map fun s => ", " ++ s) := by
  induction xs generalizing a with
  | nil => simp [commaSeparated, joinAll]
  | cons y ys ih =>
      simp only [commaSeparated, List.map_cons, joinAll]
      rw [ih y]
      simp [String.append_assoc]

/-- The writer loop started at index zero produces exactly the
comma-separated parameter list. -/
theorem writeTemplateParams_comma (l : List Path) :
    writeTemplateParams 0 l =
      commaSeparated (l.map fun p => "typename " ++ p.name) := by
  cases l with
  | nil => rfl
  | cons x xs =>
      simp only [List.map_cons]
      rw [commaSeparated_eq]
      simp only [writeTemplateParams]
      rw [if_neg (by simp)]
      rw [writeTemplateParams_pos xs 1 (Nat.succ_ne_zero 0)]
      simp [String.append_assoc, List.map_map, Function.comp_def]

/-- C9: serializing a generic parameter list emits the template header —
every parameter named `typename …`, comma-separated, in declaration order,
terminated by a line break — exactly when the target is C++ and the list is
non-empty, and emits nothing otherwise. -/
theorem generic_params_write_spec (ps : GenericParams) (config : Config) :
    GenericParams.write ps config =
      if ps.params ≠ [] ∧ config.language = Language.Cxx then
        "template<" ++
          commaSeparated (ps.params.map fun p => "typename " ++ p.name) ++
          ">" ++ "\n"
      else "" := by
  by_cases hl : config.language = Language.Cxx
  · cases hm : ps.params with
    | nil => simp [GenericParams.write, hm]
    | cons x xs =>
        simp only [GenericParams.write, hm, hl, List.isEmpty_cons,
          Bool.false_eq_true, not_false_eq_true, and_self, if_true,
          ne_eq, List.cons_ne_nil, and_true]
        rw [writeTemplateParams_comma]
  · simp [GenericParams.write, hl]

end Cbindgen
